import Mathlib

/-!
Shallow embedding of the home-scrapper pipeline (src/src/index.ts, second
revision of the file: the one with `maxPrice`, `CHUNK_SIZE`, `UF_VALUE` and
`convertIntoClp`).

JavaScript numbers that can be `NaN` are modelled as `Option Int` with
`none` standing for `NaN`; `parseInt` is modelled in its radix-10 fragment
(leading whitespace, optional sign, maximal leading digit run), which covers
every string the pipeline feeds it.  Page content and the DOM query results
are modelled by a `Card` record per result card and a function from search
link to card list; the Telegram transport is modelled by a success oracle
indexed by chat id and batch index.
-/

namespace HomeScrapper

/-- Characters matched by the JavaScript `\s` class, restricted to the ones
that can occur in scraped text. -/
def isJsSpace (c : Char) : Bool :=
  c = ' ' ∨ c = '\t' ∨ c = '\n' ∨ c = '\r'

/-- Value of a digit run, most significant first. -/
def digitsToNat (ds : List Char) : Nat :=
  ds.foldl (fun acc c => acc * 10 + (c.toNat - 48)) 0

/-- JavaScript `parseInt` on radix-10 input: skip leading whitespace, read an
optional sign, then the maximal leading digit run; no digits means `NaN`
(`none`). -/
def jsParseInt (s : String) : Option Int :=
  let t := s.toList.dropWhile isJsSpace
  match t with
  | '-' :: cs =>
      let ds := cs.takeWhile Char.isDigit
      if ds.isEmpty then none else some (-(digitsToNat ds : Int))
  | '+' :: cs =>
      let ds := cs.takeWhile Char.isDigit
      if ds.isEmpty then none else some (digitsToNat ds : Int)
  | cs =>
      let ds := cs.takeWhile Char.isDigit
      if ds.isEmpty then none else some (digitsToNat ds : Int)

/-- JavaScript `+` on numbers: `NaN` is absorbing. -/
def jsAdd (a b : Option Int) : Option Int :=
  match a, b with
  | some x, some y => some (x + y)
  | _, _ => none

/-- JavaScript `<` on numbers: any comparison with `NaN` is `false`. -/
def jsLtB (a : Option Int) (b : Int) : Bool :=
  match a with
  | some x => decide (x < b)
  | none => false

/-- JavaScript template interpolation of a number: `NaN` prints as `"NaN"`. -/
def jsNumToString (a : Option Int) : String :=
  match a with
  | some n => toString n
  | none => "NaN"

/-- `rawPrice.replace(/\./g, "")`. -/
def stripDots (s : String) : String :=
  String.mk (s.toList.filter (fun c => c ≠ '.'))

/-- `rawUrl.split("#")[0]`. -/
def stripFragment (s : String) : String :=
  String.mk (s.toList.takeWhile (fun c => c ≠ '#'))

/-- JavaScript truthiness of a possibly-absent string: absent and `""` are
falsy. -/
def jsTruthyOpt (s : Option String) : Bool :=
  match s with
  | some t => t ≠ ""
  | none => false

/-- `convertIntoClp` (index.ts:343-346): strip the dots, parse as integer,
multiply by the UF exchange rate exactly when the unit symbol is `"UF"`. -/
def convertIntoClp (rawPrice : String) (unitPrice : String) (ufValue : Int) :
    Option Int :=
  let price := stripDots rawPrice
  if unitPrice = "UF" then (jsParseInt price).map (fun n => n * ufValue)
  else jsParseInt price

/-- The `HouseData` record (index.ts:232-240); nullable strings are
`Option String`. -/
structure HouseData where
  url : Option String
  maintenanceFee : Option String
  areaOfTHeHouse : Option String
  numberOfDorms : Option String
  numberOfBathrooms : Option String
  rentPrice : Option String
  description : Option String
deriving Repr, DecidableEq

/-- The budget predicate inlined in `retrieveHousesDataFromFilterLink`
(index.ts:423-427):
`parseInt(house.rentPrice ?? "0") + parseInt(house.maintenanceFee ?? "0")
 < searchConfig.maxPrice`. -/
def qualifies (maxPrice : Int) (house : HouseData) : Bool :=
  jsLtB (jsAdd (jsParseInt (house.rentPrice.getD "0"))
               (jsParseInt (house.maintenanceFee.getD "0"))) maxPrice

/-- Leftmost match of `rawMaintenaceFee.match(/\$\s*([0-9.]+)/)`, returning
the first capture group: at the first `$` that is followed (after whitespace)
by at least one digit or dot, capture the maximal `[0-9.]` run. -/
def feeMatch : List Char → Option String
  | [] => none
  | '$' :: rest =>
      let afterWs := rest.dropWhile isJsSpace
      let ds := afterWs.takeWhile (fun c => c.isDigit ∨ c = '.')
      if ds.isEmpty then feeMatch rest else some (String.mk ds)
  | _ :: rest => feeMatch rest

/-- One group's configuration in `dataStore.json` (index.ts:242-248). -/
structure ChatConfig where
  searchLinks : List String
  alreadySeenHouses : List (String × Bool)
  maxPrice : Int
deriving Repr, DecidableEq

/-- The persisted store: a JSON object keyed by chat id, modelled as an
association list in key order. -/
abbrev DataStore : Type := List (String × ChatConfig)

/-- Truthiness of `alreadySeenHouses[url]`: the stored boolean, `false` when
the key is absent (`undefined`). -/
def lookupSeen : List (String × Bool) → String → Bool
  | [], _ => false
  | (k, v) :: rest, u => if k = u then v else lookupSeen rest u

/-- `dataStore[chatId]`: first entry with the given key. -/
def lookupChat : DataStore → String → Option ChatConfig
  | [], _ => none
  | (k, c) :: rest, g => if k = g then some c else lookupChat rest g

/-- `chatConfig.alreadySeenHouses[house.url ?? ""] = true`: overwrite the
entry in place when the key exists, append it otherwise. -/
def setSeen : List (String × Bool) → String → List (String × Bool)
  | [], u => [(u, true)]
  | (k, v) :: rest, u => if k = u then (k, true) :: rest else (k, v) :: setSeen rest u

/-- The `for (const house of housesData)` loop of `updateAlreadySeenHouses`. -/
def markSeenList (m : List (String × Bool)) (housesData : List HouseData) :
    List (String × Bool) :=
  housesData.foldl (fun acc house => setSeen acc (house.url.getD "")) m

/-- The in-place mutation of one chat's config performed by
`updateAlreadySeenHouses`: only the seen map changes. -/
def markSeenTransform (housesData : List HouseData) (c : ChatConfig) : ChatConfig :=
  { c with alreadySeenHouses := markSeenList c.alreadySeenHouses housesData }

/-- `updateAlreadySeenHouses` (index.ts:269-276): re-read the persisted
store, merge the given houses' URLs into that chat's seen map, write the
store back.  When the chat id is absent the code dereferences `undefined`
and throws before writing: modelled as `none`. -/
def updateAlreadySeenHouses (chatId : String) (housesData : List HouseData)
    (store : DataStore) : Option DataStore :=
  if (lookupChat store chatId).isSome then
    some (store.map (fun e =>
      if e.1 = chatId then (e.1, markSeenTransform housesData e.2) else e))
  else none

/-- One result card of a search page, as seen through the DOM queries of
`retrieveHouseCardInfo` and `retrieveSpecs`: the anchor `href` (`"" ` when
the anchor is absent, per `?? ""`), whether detail navigation and element
lookup succeed (the `try` block throwing models as `false`), and the text
contents the detail page yields. -/
structure Card where
  rawUrl : String
  fetchOk : Bool
  priceText : Option String
  unitText : String
  descriptionText : Option String
  specTexts : List String
  maintenanceFeeText : String
deriving Repr, DecidableEq

/-- `retrieveHouseCardInfo` (index.ts:348-399), instrumented: the second
component records the detail-page URLs navigated to for this candidate.
The seen-set lookup and the `!url` guard happen before any navigation;
inside the `try`, a failure after `goto` is caught and yields `null`. -/
def retrieveHouseCardInfo (ufValue : Int) (alreadySeenHouses : List (String × Bool))
    (card : Card) : Option HouseData × List String :=
  let url := stripFragment card.rawUrl
  let isHouseAlreadySeen := lookupSeen alreadySeenHouses url
  if url = "" ∨ isHouseAlreadySeen then (none, [])
  else if card.fetchOk = false then (none, [url])
  else
    let price := card.priceText
    let unitPrice := card.unitText
    let description := card.descriptionText
    let areaOfTheHouse := card.specTexts.get? 0
    let numberOfDorms := card.specTexts.get? 1
    let numberOfBathrooms := card.specTexts.get? 2
    let maintenanceFee := feeMatch card.maintenanceFeeText.toList
    let priceInClp := convertIntoClp (price.getD "0") unitPrice ufValue
    (some {
      url := some url
      areaOfTHeHouse := if jsTruthyOpt areaOfTheHouse then areaOfTheHouse else none
      numberOfDorms := if jsTruthyOpt numberOfDorms then numberOfDorms else none
      numberOfBathrooms := numberOfBathrooms
      rentPrice := if jsTruthyOpt price then some (jsNumToString priceInClp) else none
      description := if jsTruthyOpt description then description else none
      maintenanceFee := maintenanceFee }, [url])

/-- `retrieveHousesDataFromFilterLink` (index.ts:401-428), instrumented with
the navigation trace: collect the per-card results in order, drop the `null`
ones, then keep the houses passing the budget predicate. -/
def retrieveHousesDataFromFilterLink (ufValue : Int) (cards : List Card)
    (alreadySeenHouses : List (String × Bool)) (maxPrice : Int) :
    List HouseData × List String :=
  let results := cards.map (retrieveHouseCardInfo ufValue alreadySeenHouses)
  let housesData := results.filterMap (fun r => r.1)
  ((housesData.filter (qualifies maxPrice)), (results.map (fun r => r.2)).flatten)

/-- The body of the `for` loop of `chunkArray` (index.ts:430-436), one pass
per iteration starting from index `i`; `array.slice(i, i + chunkSize)` is
`(array.drop i).take chunkSize`.  The fuel bounds the number of iterations;
`array.length` iterations suffice whenever `chunkSize ≥ 1` (the index grows
by at least one per pass), so `chunkArray` below is exact in that case.  For
`chunkSize = 0` the real loop never terminates — see `chunkArrayStep`. -/
def chunkLoop (array : List HouseData) (chunkSize : Nat) :
    Nat → Nat → List (List HouseData)
  | _, 0 => []
  | i, fuel + 1 =>
      if i < array.length then
        (array.drop i).take chunkSize :: chunkLoop array chunkSize (i + chunkSize) fuel
      else []

/-- `chunkArray` (index.ts:430-436) for `chunkSize ≥ 1`. -/
def chunkArray (array : List HouseData) (chunkSize : Nat) : List (List HouseData) :=
  chunkLoop array chunkSize 0 array.length

/-- One iteration of the loop counter of `chunkArray`: `i += chunkSize`. -/
def chunkArrayStep (chunkSize i : Nat) : Nat := i + chunkSize

/-- The loop of `chunkArray` terminates on `array` iff after some number of
iterations the guard `i < array.length` fails. -/
def chunkArrayTerminates (array : List HouseData) (chunkSize : Nat) : Prop :=
  ∃ n, ¬ (chunkArrayStep chunkSize)^[n] 0 < array.length

/-- The dispatch loop of `processSearchHousesByChat` (index.ts:460-462)
together with `sendMessageToTelegram` (index.ts:293-307): an empty chunk
returns before calling the transport; otherwise one transport call is made,
and a failed call throws, ending the loop.  Returns the chunks for which a
transport call was made (the failing one included) and whether every call
succeeded.  `sendOk i` tells whether the call for the chunk at position `i`
succeeds. -/
def runChunks (sendOk : Nat → Bool) : Nat → List (List HouseData) →
    List (List HouseData) × Bool
  | _, [] => ([], true)
  | i, c :: cs =>
      if c = [] then runChunks sendOk (i + 1) cs
      else if sendOk i then
        let r := runChunks sendOk (i + 1) cs
        (c :: r.1, r.2)
      else ([c], false)

/-- Outcome of `processSearchHousesByChat` for one group: the listings
collected after budget filtering, the batches for which a transport call was
made, whether all calls succeeded, the detail navigations performed, and the
persisted store afterwards (`none` when `updateAlreadySeenHouses` threw). -/
structure GroupRun where
  collected : List HouseData
  attempts : List (List HouseData)
  delivered : Bool
  navs : List String
  store : Option DataStore
deriving Repr, DecidableEq

/-- `processSearchHousesByChat` (index.ts:438-466): gather the filtered
houses of every search link in order, chunk them, dispatch the chunks in
order, then persist the seen-set.  A delivery failure propagates out before
`updateAlreadySeenHouses` runs, leaving the persisted store as it was. -/
def processSearchHousesByChat (web : String → List Card) (ufValue : Int)
    (chunkSize : Nat) (sendOk : Nat → Bool) (chatId : String)
    (searchConfig : ChatConfig) (persisted : DataStore) : GroupRun :=
  let perLink := searchConfig.searchLinks.map (fun houseLink =>
    retrieveHousesDataFromFilterLink ufValue (web houseLink)
      searchConfig.alreadySeenHouses searchConfig.maxPrice)
  let allHousesLinkData := (perLink.map (fun r => r.1)).flatten
  let chunkedData := chunkArray allHousesLinkData chunkSize
  let sent := runChunks sendOk 0 chunkedData
  { collected := allHousesLinkData
    attempts := sent.1
    delivered := sent.2
    navs := (perLink.map (fun r => r.2)).flatten
    store := if sent.2 then updateAlreadySeenHouses chatId allHousesLinkData persisted
             else some persisted }

/-- The loop of `main` (index.ts:468-475) over the in-memory snapshot of the
store, threading the persisted store on disk.  An unhandled failure in a
group (delivery failure, or `updateAlreadySeenHouses` throwing) stops the
run: remaining groups are not processed and the store keeps only the updates
already written.  Returns the final persisted store and whether the run
completed. -/
def mainLoop (web : String → List Card) (ufValue : Int) (chunkSize : Nat)
    (sendOk : String → Nat → Bool) : List (String × ChatConfig) → DataStore →
    DataStore × Bool
  | [], store => (store, true)
  | (chatid, cfg) :: rest, store =>
      let run := processSearchHousesByChat web ufValue chunkSize (sendOk chatid)
        chatid cfg store
      if run.delivered then
        match run.store with
        | some s => mainLoop web ufValue chunkSize sendOk rest s
        | none => (store, false)
      else (store, false)

/-- The houses extracted for a group before budget filtering: per search
link, the non-`null` results of `retrieveHouseCardInfo`, concatenated in
link order. -/
def extractedHouses (web : String → List Card) (ufValue : Int)
    (searchConfig : ChatConfig) : List HouseData :=
  (searchConfig.searchLinks.map (fun houseLink =>
    ((web houseLink).map (retrieveHouseCardInfo ufValue
      searchConfig.alreadySeenHouses)).filterMap (fun r => r.1))).flatten

/-- The value of `allHousesLinkData` in `processSearchHousesByChat`: the
budget-filtered houses of every search link, concatenated in link order. -/
def collectedHouses (web : String → List Card) (ufValue : Int)
    (searchConfig : ChatConfig) : List HouseData :=
  ((searchConfig.searchLinks.map (fun houseLink =>
    retrieveHousesDataFromFilterLink ufValue (web houseLink)
      searchConfig.alreadySeenHouses searchConfig.maxPrice)).map (fun r => r.1)).flatten

/-- The detail-page navigations performed while processing a group, in
order. -/
def navTrace (web : String → List Card) (ufValue : Int)
    (searchConfig : ChatConfig) : List String :=
  ((searchConfig.searchLinks.map (fun houseLink =>
    retrieveHousesDataFromFilterLink ufValue (web houseLink)
      searchConfig.alreadySeenHouses searchConfig.maxPrice)).map (fun r => r.2)).flatten

/-- Recursive reference form of chunking: chunks of size `km + 1`.  Used to
prove properties of `chunkArray` when the chunk size is at least one. -/
def chunksOf (km : Nat) : List HouseData → List (List HouseData)
  | [] => []
  | a :: l => (a :: l.take km) :: chunksOf km (l.drop km)
termination_by l => l.length
decreasing_by simp [List.length_drop]; omega

/-- Sample listing with rent 60 and maintenance fee 40. -/
def houseAtLimit : HouseData :=
  { url := some "https://casa.cl/at", maintenanceFee := some "40",
    areaOfTHeHouse := none, numberOfDorms := none, numberOfBathrooms := none,
    rentPrice := some "60", description := none }

/-- Sample listing with rent 60 and maintenance fee 39. -/
def houseBelowLimit : HouseData :=
  { url := some "https://casa.cl/below", maintenanceFee := some "39",
    areaOfTHeHouse := none, numberOfDorms := none, numberOfBathrooms := none,
    rentPrice := some "60", description := none }

/-- Sample search card whose price text is non-empty but non-numeric. -/
def cardBadPrice : Card :=
  { rawUrl := "https://casa.cl/1", fetchOk := true, priceText := some "abc",
    unitText := "$", descriptionText := none, specTexts := [],
    maintenanceFeeText := "" }

/-- The `HouseData` produced by `retrieveHouseCardInfo` for `cardBadPrice`:
the `NaN` from the failed parse is interpolated into `rentPrice`. -/
def houseBadPrice : HouseData :=
  { url := some "https://casa.cl/1", maintenanceFee := none,
    areaOfTHeHouse := none, numberOfDorms := none, numberOfBathrooms := none,
    rentPrice := some "NaN", description := none }

/-- Sample card priced within budget. -/
def cardCheap : Card :=
  { rawUrl := "https://a.cl/1", fetchOk := true, priceText := some "100",
    unitText := "$", descriptionText := some "casa 1", specTexts := [],
    maintenanceFeeText := "" }

/-- Sample card priced above budget. -/
def cardExp : Card :=
  { rawUrl := "https://a.cl/2", fetchOk := true, priceText := some "9.999.999",
    unitText := "$", descriptionText := some "casa 2", specTexts := [],
    maintenanceFeeText := "" }

/-- Sample card for the second group, batch 0. -/
def cardA : Card :=
  { rawUrl := "https://a.cl/3", fetchOk := true, priceText := some "200",
    unitText := "$", descriptionText := none, specTexts := [],
    maintenanceFeeText := "" }

/-- Sample card for the second group, batch 1. -/
def cardB : Card :=
  { rawUrl := "https://a.cl/4", fetchOk := true, priceText := some "300",
    unitText := "$", descriptionText := none, specTexts := [],
    maintenanceFeeText := "" }

/-- Sample card for the second group, batch 2. -/
def cardC : Card :=
  { rawUrl := "https://a.cl/5", fetchOk := true, priceText := some "400",
    unitText := "$", descriptionText := none, specTexts := [],
    maintenanceFeeText := "" }

/-- Sample web content: two search pages. -/
def webW : String → List Card := fun l =>
  if l = "L1" then [cardCheap, cardExp]
  else if l = "L2" then [cardA, cardB, cardC] else []

/-- First sample group configuration. -/
def cfgW : ChatConfig :=
  { searchLinks := ["L1"], alreadySeenHouses := [], maxPrice := 1000000 }

/-- Second sample group configuration. -/
def cfgW2 : ChatConfig :=
  { searchLinks := ["L2"], alreadySeenHouses := [], maxPrice := 1000000 }

/-- Sample persisted store with two groups. -/
def storeW : DataStore := [("g1", cfgW), ("g2", cfgW2)]

/-- The first group's configuration after its run marked the cheap listing
seen. -/
def cfgW1 : ChatConfig :=
  { searchLinks := ["L1"], alreadySeenHouses := [("https://a.cl/1", true)],
    maxPrice := 1000000 }

/-- The persisted store after the first sample group's run. -/
def storeW1 : DataStore := [("g1", cfgW1), ("g2", cfgW2)]

/-- Transport oracle failing exactly at the second batch of group `g2`. -/
def sendOkW : String → Nat → Bool := fun cid i =>
  if cid = "g2" ∧ i = 1 then false else true

/-- The listing extracted from `cardCheap`. -/
def houseCheap : HouseData :=
  { url := some "https://a.cl/1", maintenanceFee := none,
    areaOfTHeHouse := none, numberOfDorms := none, numberOfBathrooms := none,
    rentPrice := some "100", description := some "casa 1" }

/-- A group configuration that has already seen both sample candidates. -/
def cfgSeen : ChatConfig :=
  { searchLinks := ["L1"],
    alreadySeenHouses := [("https://a.cl/1", true), ("https://a.cl/2", true)],
    maxPrice := 1000000 }

/-- Persisted store for the fully-seen group. -/
def storeSeen : DataStore := [("g1", cfgSeen)]

/-! ### Helper lemmas -/

theorem jsParseInt_nan : jsParseInt "NaN" = none := by decide

theorem lookupSeen_setSeen (m : List (String × Bool)) (k u : String) :
    lookupSeen (setSeen m k) u = if k = u then true else lookupSeen m u := by
  induction m with
  | nil => simp [setSeen, lookupSeen]
  | cons e rest ih =>
      obtain ⟨ek, ev⟩ := e
      by_cases h1 : ek = k
      · have hset : setSeen ((ek, ev) :: rest) k = (ek, true) :: rest := by
          simp [setSeen, h1]
        rw [hset]
        simp only [lookupSeen]
        by_cases h2 : ek = u
        · simp [h2, h1.symm.trans h2]
        · have hku : ¬ k = u := fun h => h2 (h1.trans h)
          simp [h2, hku]
      · have hset : setSeen ((ek, ev) :: rest) k = (ek, ev) :: setSeen rest k := by
          simp [setSeen, h1]
        rw [hset]
        simp only [lookupSeen, ih]
        by_cases h2 : ek = u
        · have hku : ¬ k = u := fun h => h1 (h2.trans h.symm)
          simp [h2, hku]
        · simp [h2]

theorem lookupSeen_markSeenList (housesData : List HouseData)
    (m : List (String × Bool)) (u : String) :
    lookupSeen (markSeenList m housesData) u =
      (lookupSeen m u || housesData.any (fun h => h.url.getD "" = u)) := by
  induction housesData generalizing m with
  | nil => simp [markSeenList]
  | cons h rest ih =>
      have hstep : markSeenList m (h :: rest) =
          markSeenList (setSeen m (h.url.getD "")) rest := rfl
      rw [hstep, ih, lookupSeen_setSeen]
      by_cases hc : h.url.getD "" = u <;> simp [hc]

theorem lookupChat_map_update (store : DataStore) (chatId : String)
    (t : ChatConfig → ChatConfig) (g : String) :
    lookupChat (store.map (fun e => if e.1 = chatId then (e.1, t e.2) else e)) g =
      if g = chatId then (lookupChat store g).map t else lookupChat store g := by
  induction store with
  | nil =>
      simp only [List.map_nil, lookupChat]
      split_ifs <;> rfl
  | cons e rest ih =>
      obtain ⟨k, c⟩ := e
      by_cases hk : k = chatId
      · have hmap : ((k, c) :: rest).map
            (fun e => if e.1 = chatId then (e.1, t e.2) else e)
            = (k, t c) :: rest.map (fun e => if e.1 = chatId then (e.1, t e.2) else e) := by
          simp [hk]
        rw [hmap]
        subst hk
        by_cases hg : k = g
        · subst hg
          simp [lookupChat]
        · have hg2 : ¬ g = k := fun h => hg h.symm
          simp [lookupChat, hg, hg2, ih]
      · have hmap : ((k, c) :: rest).map
            (fun e => if e.1 = chatId then (e.1, t e.2) else e)
            = (k, c) :: rest.map (fun e => if e.1 = chatId then (e.1, t e.2) else e) := by
          simp [hk]
        rw [hmap]
        by_cases hg : k = g
        · subst hg
          simp [lookupChat, hk]
        · simp [lookupChat, hg, ih]

theorem updateAlreadySeenHouses_eq (chatId : String) (housesData : List HouseData)
    (store store' : DataStore)
    (h : updateAlreadySeenHouses chatId housesData store = some store') :
    store' = store.map (fun e =>
      if e.1 = chatId then (e.1, markSeenTransform housesData e.2) else e) := by
  unfold updateAlreadySeenHouses at h
  by_cases hc : (lookupChat store chatId).isSome
  · rw [if_pos hc] at h
    simp only [Option.some.injEq] at h
    exact h.symm
  · rw [if_neg hc] at h
    exact absurd h (by simp)

theorem map_eq_self_of_mem {α : Type} (l : List α) (f : α → α)
    (h : ∀ a ∈ l, f a = a) : l.map f = l :=
  (List.map_congr_left h).trans (List.map_id l)

theorem flatten_map_nil {α β : Type} (l : List α) :
    (l.map (fun _ => ([] : List β))).flatten = [] := by
  induction l with
  | nil => rfl
  | cons a t ih => simp [ih]

/-- Record form of `processSearchHousesByChat`, for calculation. -/
theorem processSearch_eq (web : String → List Card) (ufValue : Int)
    (chunkSize : Nat) (sendOk : Nat → Bool) (chatId : String)
    (searchConfig : ChatConfig) (persisted : DataStore) :
    processSearchHousesByChat web ufValue chunkSize sendOk chatId searchConfig persisted =
      { collected := collectedHouses web ufValue searchConfig
        attempts := (runChunks sendOk 0
          (chunkArray (collectedHouses web ufValue searchConfig) chunkSize)).1
        delivered := (runChunks sendOk 0
          (chunkArray (collectedHouses web ufValue searchConfig) chunkSize)).2
        navs := navTrace web ufValue searchConfig
        store := if (runChunks sendOk 0
            (chunkArray (collectedHouses web ufValue searchConfig) chunkSize)).2 then
          updateAlreadySeenHouses chatId (collectedHouses web ufValue searchConfig) persisted
        else some persisted } := rfl

theorem collectedHouses_eq_filter (web : String → List Card) (ufValue : Int)
    (searchConfig : ChatConfig) :
    collectedHouses web ufValue searchConfig =
      (extractedHouses web ufValue searchConfig).filter
        (qualifies searchConfig.maxPrice) := by
  unfold collectedHouses extractedHouses retrieveHousesDataFromFilterLink
  rw [List.filter_flatten, List.map_map, List.map_map]
  rfl

theorem mainLoop_append (web : String → List Card) (ufValue : Int)
    (chunkSize : Nat) (sendOk : String → Nat → Bool)
    (xs ys : List (String × ChatConfig)) (store : DataStore) :
    mainLoop web ufValue chunkSize sendOk (xs ++ ys) store =
      (if (mainLoop web ufValue chunkSize sendOk xs store).2 then
        mainLoop web ufValue chunkSize sendOk ys
          (mainLoop web ufValue chunkSize sendOk xs store).1
      else mainLoop web ufValue chunkSize sendOk xs store) := by
  induction xs generalizing store with
  | nil => simp [mainLoop]
  | cons e rest ih =>
      obtain ⟨cid, cfg⟩ := e
      have hL : ∀ (zs : List (String × ChatConfig)),
          mainLoop web ufValue chunkSize sendOk ((cid, cfg) :: zs) store =
            (if (processSearchHousesByChat web ufValue chunkSize (sendOk cid)
                cid cfg store).delivered then
              match (processSearchHousesByChat web ufValue chunkSize (sendOk cid)
                  cid cfg store).store with
              | some s => mainLoop web ufValue chunkSize sendOk zs s
              | none => (store, false)
            else (store, false)) := fun zs => rfl
      rw [List.cons_append, hL (rest ++ ys), hL rest]
      by_cases hd : (processSearchHousesByChat web ufValue chunkSize (sendOk cid)
          cid cfg store).delivered
      · rw [if_pos hd, if_pos hd]
        cases hs : (processSearchHousesByChat web ufValue chunkSize (sendOk cid)
            cid cfg store).store with
        | none => simp
        | some s => exact ih s
      · rw [if_neg hd, if_neg hd]
        simp

/-! ### Claim theorems -/

/-- C1: the budget filter accepts a listing exactly when its parsed rent
amount (`"0"`, hence `0`, when the field is absent) plus its parsed
maintenance-fee amount (likewise `0` when absent) is strictly below the
group's `maxPrice`; equality at the threshold is rejected. -/
theorem budget_filter_iff (house : HouseData) (maxTotal r m : Int)
    (hr : jsParseInt (house.rentPrice.getD "0") = some r)
    (hm : jsParseInt (house.maintenanceFee.getD "0") = some m) :
    qualifies maxTotal house = true ↔ r + m < maxTotal := by
  simp [qualifies, hr, hm, jsAdd, jsLtB]

/-- Witness for C1: at `maxTotal = 100`, the listing totalling exactly 100
is excluded and the listing totalling 99 is included. -/
theorem budget_filter_iff_witness :
    qualifies 100 houseAtLimit = false ∧ qualifies 100 houseBelowLimit = true := by
  constructor
  · have h := budget_filter_iff houseAtLimit 100 60 40 (by decide) (by decide)
    rw [Bool.eq_false_iff]
    intro ht
    exact absurd (h.mp ht) (by decide)
  · exact (budget_filter_iff houseBelowLimit 100 60 39 (by decide) (by decide)).mpr
      (by decide)

/-- C2: on a raw price whose separator-stripped text parses, the
normalization returns the parsed integer, multiplied by the exchange rate
exactly when the unit tag is `"UF"`. -/
theorem convertIntoClp_spec (rawPrice unitPrice : String) (ufValue n : Int)
    (h : jsParseInt (stripDots rawPrice) = some n) :
    convertIntoClp rawPrice unitPrice ufValue =
      some (if unitPrice = "UF" then n * ufValue else n) := by
  unfold convertIntoClp
  by_cases hu : unitPrice = "UF" <;> simp [hu, h]

/-- Witness for C2: raw text `"2.500"` with unit `"UF"` and exchange rate
`38000` normalizes to `95000000`. -/
theorem convertIntoClp_spec_witness :
    convertIntoClp "2.500" "UF" 38000 = some 95000000 := by
  have h := convertIntoClp_spec "2.500" "UF" 38000 2500 (by decide)
  simpa using h

/-- C6: a candidate whose fragment-stripped URL is marked in the seen-set is
dropped before any detail-page navigation: the navigation trace is empty. -/
theorem dedup_skips_navigation (ufValue : Int)
    (alreadySeenHouses : List (String × Bool)) (card : Card)
    (hseen : lookupSeen alreadySeenHouses (stripFragment card.rawUrl) = true) :
    retrieveHouseCardInfo ufValue alreadySeenHouses card = (none, []) := by
  unfold retrieveHouseCardInfo
  rw [if_pos (Or.inr hseen)]

/-- Witness for C6 at a concrete seen card. -/
theorem dedup_skips_navigation_witness :
    retrieveHouseCardInfo 38000 [("https://casa.cl/1", true)] cardBadPrice
      = (none, []) :=
  dedup_skips_navigation 38000 [("https://casa.cl/1", true)] cardBadPrice (by decide)

/-- Counterexample to C3 as stated: for the non-empty, non-numeric raw price
text `"abc"` the pipeline produces `rentPrice = "NaN"`; the budget
comparison then evaluates with `NaN` and rejects the listing, whereas the
claimed zero-fallback (rent treated as `0`) would accept it against
`maxTotal = 100`. -/
theorem nan_reaches_comparison_counterexample :
    (retrieveHouseCardInfo 38000 [] cardBadPrice).1 = some houseBadPrice ∧
    houseBadPrice.rentPrice = some "NaN" ∧
    qualifies 100 houseBadPrice = false ∧
    jsLtB (jsAdd (some 0) (jsParseInt (houseBadPrice.maintenanceFee.getD "0"))) 100
      = true := by
  refine ⟨by decide, rfl, by decide, by decide⟩

/-- C3 amended: malformed raw price text splits into two behaviours.  When
the raw text is absent or empty, the listing's `rentPrice` is `null` and the
budget comparison parses the `"0"` default, a genuine zero-fallback.  When
the raw text is non-empty but does not parse, the `NaN` sentinel is
interpolated into `rentPrice` as the string `"NaN"`, propagates into the
budget comparison, and makes it false: the listing is excluded for every
threshold. -/
theorem malformed_price_fallback (ufValue : Int)
    (alreadySeenHouses : List (String × Bool)) (card : Card) (house : HouseData)
    (hres : (retrieveHouseCardInfo ufValue alreadySeenHouses card).1 = some house) :
    (jsTruthyOpt card.priceText = false →
      house.rentPrice = none ∧ jsParseInt (house.rentPrice.getD "0") = some 0) ∧
    (∀ p, card.priceText = some p → p ≠ "" → jsParseInt (stripDots p) = none →
      house.rentPrice = some "NaN" ∧ ∀ maxPrice : Int, qualifies maxPrice house = false) := by
  unfold retrieveHouseCardInfo at hres
  by_cases h1 : stripFragment card.rawUrl = "" ∨
      lookupSeen alreadySeenHouses (stripFragment card.rawUrl) = true
  · rw [if_pos h1] at hres
    exact absurd hres (by simp)
  · rw [if_neg h1] at hres
    by_cases h2 : card.fetchOk = false
    · rw [if_pos h2] at hres
      exact absurd hres (by simp)
    · rw [if_neg h2] at hres
      simp only [Option.some.injEq] at hres
      subst hres
      constructor
      · intro htr
        constructor
        · simp [htr]
        · simp only [htr]
          simp only [Bool.false_eq_true, if_false, Option.getD_none]
          decide
      · intro p hp hne hparse
        have htr : jsTruthyOpt card.priceText = true := by
          simp [jsTruthyOpt, hp, hne]
        have hclp : convertIntoClp (card.priceText.getD "0") card.unitText ufValue
            = none := by
          rw [hp]
          unfold convertIntoClp
          by_cases hu : card.unitText = "UF" <;> simp [hu, hparse]
        constructor
        · simp [htr, hclp, jsNumToString]
        · intro maxPrice
          simp [qualifies, htr, hclp, jsNumToString, jsParseInt_nan, jsAdd, jsLtB]

/-- Witness for the amended C3 at the concrete malformed card. -/
theorem malformed_price_fallback_witness :
    houseBadPrice.rentPrice = some "NaN" ∧ qualifies 250000 houseBadPrice = false := by
  have h := (malformed_price_fallback 38000 [] cardBadPrice houseBadPrice
    (by decide)).2 "abc" rfl (by decide) (by decide)
  exact ⟨h.1, h.2 250000⟩

/-- C8: the code has no guard for chunk size zero: on any non-empty input
the loop index never advances and the guard `i < array.length` holds after
every iteration, so the loop never terminates.  For every chunk size of at
least one, the loop does terminate. -/
theorem chunk_size_zero_loops :
    (¬ chunkArrayTerminates [houseAtLimit] 0) ∧
    ∀ (array : List HouseData) (chunkSize : Nat), 1 ≤ chunkSize →
      chunkArrayTerminates array chunkSize := by
  constructor
  · rintro ⟨n, hn⟩
    apply hn
    have hfix : chunkArrayStep 0 0 = 0 := rfl
    rw [Function.iterate_fixed hfix]
    decide
  · intro array chunkSize hk
    refine ⟨array.length, ?_⟩
    have hiter : ∀ n : Nat, (chunkArrayStep chunkSize)^[n] 0 = n * chunkSize := by
      intro n
      induction n with
      | zero => simp
      | succ n ih =>
          rw [Function.iterate_succ_apply', ih]
          unfold chunkArrayStep
          ring
    rw [hiter]
    have : array.length ≤ array.length * chunkSize :=
      Nat.le_mul_of_pos_right array.length (by omega)
    omega

/-- Witness for the terminating half of C8. -/
theorem chunk_size_zero_loops_witness :
    chunkArrayTerminates [houseAtLimit] 1 :=
  chunk_size_zero_loops.2 [houseAtLimit] 1 (by decide)

theorem chunkLoop_eq_chunksOf (fuel : Nat) :
    ∀ (array : List HouseData) (km i : Nat), array.length - i ≤ fuel →
      chunkLoop array (km + 1) i fuel = chunksOf km (array.drop i) := by
  induction fuel with
  | zero =>
      intro array km i h
      have hdrop : array.drop i = [] := List.drop_eq_nil_of_le (by omega)
      rw [hdrop, chunksOf]
      rfl
  | succ fuel ih =>
      intro array km i h
      by_cases hi : i < array.length
      · have hne : array.drop i ≠ [] := by
          rw [Ne, List.drop_eq_nil_iff]
          omega
        obtain ⟨a, t, ht⟩ : ∃ a t, array.drop i = a :: t := by
          cases hd : array.drop i with
          | nil => exact absurd hd hne
          | cons a t => exact ⟨a, t, rfl⟩
        have hstep : chunkLoop array (km + 1) i (fuel + 1)
            = (array.drop i).take (km + 1) :: chunkLoop array (km + 1) (i + (km + 1)) fuel := by
          rw [chunkLoop, if_pos hi]
        rw [hstep, ih array km (i + (km + 1)) (by omega)]
        have hdd : array.drop (i + (km + 1)) = t.drop km := by
          rw [← List.drop_drop, ht]
          rfl
        rw [hdd, ht, List.take_succ_cons, chunksOf]
      · have hdrop : array.drop i = [] := List.drop_eq_nil_of_le (by omega)
        rw [hdrop, chunkLoop, if_neg hi, chunksOf]

theorem chunkArray_eq_chunksOf (l : List HouseData) (k : Nat) (hk : 1 ≤ k) :
    chunkArray l k = chunksOf (k - 1) l := by
  have hb : k - 1 + 1 = k := by omega
  have h := chunkLoop_eq_chunksOf l.length l (k - 1) 0 (by omega)
  rw [hb] at h
  rw [chunkArray, h, List.drop_zero]

theorem chunksOf_flatten (km : Nat) : ∀ (n : Nat) (l : List HouseData),
    l.length ≤ n → (chunksOf km l).flatten = l
  | _, [], _ => by rw [chunksOf]; rfl
  | 0, a :: l, h => by simp at h
  | n + 1, a :: l, h => by
      rw [chunksOf, List.flatten_cons,
        chunksOf_flatten km n (l.drop km)
          (by simp only [List.length_drop]; simp only [List.length_cons] at h; omega)]
      simp [List.take_append_drop]

theorem chunksOf_ne_nil (km : Nat) : ∀ (n : Nat) (l : List HouseData),
    l.length ≤ n → ∀ c ∈ chunksOf km l, c ≠ []
  | _, [], _ => by rw [chunksOf]; intro c hc; simp at hc
  | 0, a :: l, h => by simp at h
  | n + 1, a :: l, h => by
      rw [chunksOf]
      intro c hc
      rcases List.mem_cons.mp hc with hc | hc
      · subst hc; simp
      · exact chunksOf_ne_nil km n (l.drop km)
          (by simp only [List.length_drop]; simp only [List.length_cons] at h; omega) c hc

theorem chunksOf_dropLast_length (km : Nat) : ∀ (n : Nat) (l : List HouseData),
    l.length ≤ n → ∀ c ∈ (chunksOf km l).dropLast, c.length = km + 1
  | _, [], _ => by rw [chunksOf]; intro c hc; simp at hc
  | 0, a :: l, h => by simp at h
  | n + 1, a :: l, h => by
      rw [chunksOf]
      by_cases hrest : chunksOf km (l.drop km) = []
      · rw [hrest]
        intro c hc
        simp at hc
      · rw [List.dropLast_cons_of_ne_nil hrest]
        intro c hc
        rcases List.mem_cons.mp hc with hc | hc
        · subst hc
          have hlen : km < l.length := by
            by_contra hle
            exact hrest (by rw [List.drop_eq_nil_of_le (by omega), chunksOf])
          simp [List.length_take]
          omega
        · exact chunksOf_dropLast_length km n (l.drop km)
            (by simp only [List.length_drop]; simp only [List.length_cons] at h; omega) c hc

theorem runChunks_all_ok (sendOk : Nat → Bool) (hok : ∀ j, sendOk j = true) :
    ∀ (chunks : List (List HouseData)) (i : Nat), (∀ c ∈ chunks, c ≠ []) →
      runChunks sendOk i chunks = (chunks, true) := by
  intro chunks
  induction chunks with
  | nil => intro i _; rfl
  | cons c cs ih =>
      intro i hne
      have hc : c ≠ [] := hne c (List.mem_cons_self c cs)
      rw [runChunks, if_neg hc, if_pos (hok i), ih (i + 1) (fun d hd => hne d (List.mem_cons_of_mem c hd))]

theorem runChunks_attempts_take (sendOk : Nat → Bool) :
    ∀ (chunks : List (List HouseData)) (i : Nat),
      ∃ n, (runChunks sendOk i chunks).1 =
        (chunks.filter (fun c => decide (c ≠ []))).take n := by
  intro chunks
  induction chunks with
  | nil => exact fun i => ⟨0, rfl⟩
  | cons c cs ih =>
      intro i
      by_cases hc : c = []
      · subst hc
        obtain ⟨n, hn⟩ := ih (i + 1)
        refine ⟨n, ?_⟩
        rw [runChunks]
        simpa using hn
      · have hfil : (c :: cs).filter (fun c => decide (c ≠ []))
            = c :: cs.filter (fun c => decide (c ≠ [])) := by
          simp [List.filter_cons, hc]
        by_cases hs : sendOk i = true
        · obtain ⟨n, hn⟩ := ih (i + 1)
          refine ⟨n + 1, ?_⟩
          rw [runChunks, if_neg hc, if_pos hs, hfil]
          simpa using hn
        · refine ⟨1, ?_⟩
          rw [runChunks, if_neg hc, if_neg hs, hfil]
          rfl

/-- C9: for every chunk size of at least one, the batcher partitions the
list into consecutive chunks whose concatenation is the original list (so
relative order is preserved within and across chunks), every chunk except
possibly the last has length exactly the chunk size, no chunk is empty, and
when every transport call succeeds the dispatch loop sends exactly those
chunks in order. -/
theorem chunkArray_spec (l : List HouseData) (k : Nat) (hk : 1 ≤ k) :
    (chunkArray l k).flatten = l ∧
    (∀ c ∈ (chunkArray l k).dropLast, c.length = k) ∧
    (∀ c ∈ chunkArray l k, c ≠ []) ∧
    (∀ sendOk : Nat → Bool, (∀ j, sendOk j = true) →
      runChunks sendOk 0 (chunkArray l k) = (chunkArray l k, true)) := by
  rw [chunkArray_eq_chunksOf l k hk]
  have hb : k - 1 + 1 = k := by omega
  refine ⟨?_, ?_, ?_, ?_⟩
  · exact chunksOf_flatten (k - 1) l.length l le_rfl
  · intro c hc
    rw [← hb]
    exact chunksOf_dropLast_length (k - 1) l.length l le_rfl c hc
  · exact chunksOf_ne_nil (k - 1) l.length l le_rfl
  · intro sendOk hok
    exact runChunks_all_ok sendOk hok _ 0 (chunksOf_ne_nil (k - 1) l.length l le_rfl)

/-- Witness for C9: chunk size 1 on three listings gives three singleton
batches dispatched in order. -/
theorem chunkArray_spec_witness :
    runChunks (fun _ => true) 0 (chunkArray [houseAtLimit, houseBelowLimit, houseBadPrice] 1)
      = (chunkArray [houseAtLimit, houseBelowLimit, houseBadPrice] 1, true) ∧
    chunkArray [houseAtLimit, houseBelowLimit, houseBadPrice] 1
      = [[houseAtLimit], [houseBelowLimit], [houseBadPrice]] := by
  refine ⟨(chunkArray_spec [houseAtLimit, houseBelowLimit, houseBadPrice] 1
    (by decide)).2.2.2 (fun _ => true) (fun _ => rfl), ?_⟩
  rfl

/-- C10: the seen-set update only grows state: it never removes a URL from
the updated group's seen map, and leaves every other group's entry and the
updated group's search links and maximum price unchanged. -/
theorem markSeen_frame (chatId : String) (housesData : List HouseData)
    (store store' : DataStore)
    (h : updateAlreadySeenHouses chatId housesData store = some store') :
    (∀ g, g ≠ chatId → lookupChat store' g = lookupChat store g) ∧
    (∀ cfg', lookupChat store' chatId = some cfg' →
      ∃ cfg, lookupChat store chatId = some cfg ∧
        cfg'.searchLinks = cfg.searchLinks ∧ cfg'.maxPrice = cfg.maxPrice ∧
        ∀ u, lookupSeen cfg.alreadySeenHouses u = true →
          lookupSeen cfg'.alreadySeenHouses u = true) := by
  have hs := updateAlreadySeenHouses_eq chatId housesData store store' h
  subst hs
  constructor
  · intro g hg
    rw [lookupChat_map_update store chatId (markSeenTransform housesData) g, if_neg hg]
  · intro cfg' hcfg'
    rw [lookupChat_map_update store chatId (markSeenTransform housesData) chatId,
      if_pos rfl] at hcfg'
    cases hc : lookupChat store chatId with
    | none => rw [hc] at hcfg'; exact absurd hcfg' (by simp)
    | some cfg =>
        rw [hc] at hcfg'
        have hcfg2 : markSeenTransform housesData cfg = cfg' := by
          simpa using hcfg'
        refine ⟨cfg, rfl, ?_, ?_, ?_⟩
        · rw [← hcfg2]; rfl
        · rw [← hcfg2]; rfl
        · intro u hu
          rw [← hcfg2]
          show lookupSeen (markSeenList cfg.alreadySeenHouses housesData) u = true
          rw [lookupSeen_markSeenList]
          simp [hu]

/-- C4: the listings a group collects are exactly the extracted listings
that pass the budget filter, and the seen-set update of a delivered run adds
exactly the collected listings' URLs: a rejected listing's URL is not added,
so membership of any other URL is unchanged. -/
theorem rejected_not_marked_seen (web : String → List Card) (ufValue : Int)
    (chunkSize : Nat) (sendOk : Nat → Bool) (chatId : String)
    (searchConfig : ChatConfig) (persisted : DataStore) (run : GroupRun)
    (store' : DataStore) (pcfg pcfg' : ChatConfig)
    (hrun : run = processSearchHousesByChat web ufValue chunkSize sendOk chatId
      searchConfig persisted)
    (hdel : run.delivered = true)
    (hstore : run.store = some store')
    (hbefore : lookupChat persisted chatId = some pcfg)
    (hafter : lookupChat store' chatId = some pcfg') :
    run.collected = (extractedHouses web ufValue searchConfig).filter
      (qualifies searchConfig.maxPrice) ∧
    (∀ house ∈ run.collected, qualifies searchConfig.maxPrice house = true) ∧
    (∀ u, lookupSeen pcfg'.alreadySeenHouses u =
      (lookupSeen pcfg.alreadySeenHouses u
        || run.collected.any (fun h => h.url.getD "" = u))) := by
  subst hrun
  refine ⟨collectedHouses_eq_filter web ufValue searchConfig, ?_, ?_⟩
  · intro house hmem
    have hmem2 : house ∈ (extractedHouses web ufValue searchConfig).filter
        (qualifies searchConfig.maxPrice) := by
      rw [← collectedHouses_eq_filter]
      exact hmem
    exact (List.mem_filter.mp hmem2).2
  · have hstore2 : (if (runChunks sendOk 0
        (chunkArray (collectedHouses web ufValue searchConfig) chunkSize)).2 then
        updateAlreadySeenHouses chatId (collectedHouses web ufValue searchConfig)
          persisted
      else some persisted) = some store' := hstore
    have hdel2 : (runChunks sendOk 0
        (chunkArray (collectedHouses web ufValue searchConfig) chunkSize)).2
        = true := hdel
    rw [hdel2] at hstore2
    simp only [if_true] at hstore2
    have hmap := updateAlreadySeenHouses_eq chatId
      (collectedHouses web ufValue searchConfig) persisted store' hstore2
    subst hmap
    rw [lookupChat_map_update persisted chatId
      (markSeenTransform (collectedHouses web ufValue searchConfig)) chatId,
      if_pos rfl, hbefore] at hafter
    have hcfg2 : markSeenTransform (collectedHouses web ufValue searchConfig) pcfg
        = pcfg' := by
      simpa using hafter
    intro u
    rw [← hcfg2]
    show lookupSeen (markSeenList pcfg.alreadySeenHouses
      (collectedHouses web ufValue searchConfig)) u = _
    rw [lookupSeen_markSeenList]
    rfl

/-- C5: when every candidate on every search page of the group is already in
the group's seen-set, the run collects nothing, makes no transport call, and
writes the persisted store back unchanged. -/
theorem second_run_noop (web : String → List Card) (ufValue : Int)
    (chunkSize : Nat) (sendOk : Nat → Bool) (chatId : String)
    (searchConfig : ChatConfig) (persisted : DataStore) (run : GroupRun)
    (hrun : run = processSearchHousesByChat web ufValue chunkSize sendOk chatId
      searchConfig persisted)
    (hseen : ∀ l ∈ searchConfig.searchLinks, ∀ c ∈ web l,
      stripFragment c.rawUrl = "" ∨
        lookupSeen searchConfig.alreadySeenHouses (stripFragment c.rawUrl) = true)
    (hchat : (lookupChat persisted chatId).isSome = true) :
    run.collected = [] ∧ run.attempts = [] ∧ run.delivered = true ∧
      run.store = some persisted := by
  subst hrun
  have hcards : ∀ l ∈ searchConfig.searchLinks, ∀ c ∈ web l,
      retrieveHouseCardInfo ufValue searchConfig.alreadySeenHouses c = (none, []) := by
    intro l hl c hc
    unfold retrieveHouseCardInfo
    rcases hseen l hl c hc with h | h
    · rw [if_pos (Or.inl h)]
    · rw [if_pos (Or.inr h)]
  have hlink : ∀ l ∈ searchConfig.searchLinks,
      retrieveHousesDataFromFilterLink ufValue (web l)
        searchConfig.alreadySeenHouses searchConfig.maxPrice = ([], []) := by
    intro l hl
    unfold retrieveHousesDataFromFilterLink
    rw [List.map_congr_left (fun c hc => hcards l hl c hc)]
    simp
  have hcol : collectedHouses web ufValue searchConfig = [] := by
    unfold collectedHouses
    rw [List.map_congr_left hlink, List.map_map]
    exact flatten_map_nil searchConfig.searchLinks
  have hupd : updateAlreadySeenHouses chatId [] persisted = some persisted := by
    unfold updateAlreadySeenHouses
    rw [if_pos hchat]
    congr 1
    apply map_eq_self_of_mem
    intro e he
    obtain ⟨k, c⟩ := e
    by_cases hmatch : k = chatId
    · rw [if_pos hmatch]
      obtain ⟨ls, seen, mp⟩ := c
      rfl
    · rw [if_neg hmatch]
  refine ⟨hcol, ?_, ?_, ?_⟩
  · show (runChunks sendOk 0
      (chunkArray (collectedHouses web ufValue searchConfig) chunkSize)).1 = []
    rw [hcol]
    rfl
  · show (runChunks sendOk 0
      (chunkArray (collectedHouses web ufValue searchConfig) chunkSize)).2 = true
    rw [hcol]
    rfl
  · show (if (runChunks sendOk 0
        (chunkArray (collectedHouses web ufValue searchConfig) chunkSize)).2 then
      updateAlreadySeenHouses chatId (collectedHouses web ufValue searchConfig)
        persisted
    else some persisted) = some persisted
    rw [hcol]
    exact hupd

/-- C7: when delivery fails for a group, the dispatch loop stops at the
failing batch (the batches actually attempted form a prefix of the chunk
list), the group's seen-set update does not happen (the persisted store
stays as it was before the group), the remaining groups of the run are never
reached, and whatever the earlier groups persisted is kept. -/
theorem delivery_failfast (web : String → List Card) (ufValue : Int)
    (chunkSize : Nat) (sendOk : String → Nat → Bool)
    (groupsBefore : List (String × ChatConfig)) (chatId : String)
    (cfg : ChatConfig) (groupsAfter : List (String × ChatConfig))
    (store store1 : DataStore) (run : GroupRun)
    (hbefore : mainLoop web ufValue chunkSize sendOk groupsBefore store
      = (store1, true))
    (hrun : run = processSearchHousesByChat web ufValue chunkSize (sendOk chatId)
      chatId cfg store1)
    (hfail : run.delivered = false) :
    mainLoop web ufValue chunkSize sendOk
        (groupsBefore ++ (chatId, cfg) :: groupsAfter) store = (store1, false) ∧
    run.store = some store1 ∧
    (∃ n, run.attempts =
      ((chunkArray run.collected chunkSize).filter (fun c => c ≠ [])).take n) := by
  subst hrun
  have hfail2 : (runChunks (sendOk chatId) 0
      (chunkArray (collectedHouses web ufValue cfg) chunkSize)).2 = false := hfail
  refine ⟨?_, ?_, ?_⟩
  · rw [mainLoop_append, hbefore]
    simp only [if_true]
    have hstep : mainLoop web ufValue chunkSize sendOk ((chatId, cfg) :: groupsAfter)
        store1 =
        (if (processSearchHousesByChat web ufValue chunkSize (sendOk chatId)
            chatId cfg store1).delivered then
          match (processSearchHousesByChat web ufValue chunkSize (sendOk chatId)
              chatId cfg store1).store with
          | some s => mainLoop web ufValue chunkSize sendOk groupsAfter s
          | none => (store1, false)
        else (store1, false)) := rfl
    rw [hstep, if_neg (by rw [show (processSearchHousesByChat web ufValue chunkSize
      (sendOk chatId) chatId cfg store1).delivered
        = (runChunks (sendOk chatId) 0 (chunkArray (collectedHouses web ufValue cfg)
          chunkSize)).2 from rfl, hfail2]; exact Bool.false_ne_true)]
  · show (if (runChunks (sendOk chatId) 0
        (chunkArray (collectedHouses web ufValue cfg) chunkSize)).2 then
      updateAlreadySeenHouses chatId (collectedHouses web ufValue cfg) store1
    else some store1) = some store1
    rw [hfail2]
    simp
  · exact runChunks_attempts_take (sendOk chatId)
      (chunkArray (collectedHouses web ufValue cfg) chunkSize) 0

/-- Witness for C10: after marking the cheap listing seen for group `g1`,
group `g2`'s entry is unchanged. -/
theorem markSeen_frame_witness :
    lookupChat storeW1 "g2" = lookupChat storeW "g2" :=
  (markSeen_frame "g1" [houseCheap] storeW storeW1 (by decide)).1 "g2" (by decide)

/-- Witness for C4: the over-budget candidate's URL is not in the updated
seen map, matching the characterization. -/
theorem rejected_not_marked_seen_witness :
    lookupSeen cfgW1.alreadySeenHouses "https://a.cl/2" =
      (lookupSeen cfgW.alreadySeenHouses "https://a.cl/2"
        || (processSearchHousesByChat webW 38000 1 (fun _ => true) "g1" cfgW
            storeW).collected.any (fun h => h.url.getD "" = "https://a.cl/2")) :=
  (rejected_not_marked_seen webW 38000 1 (fun _ => true) "g1" cfgW storeW
    (processSearchHousesByChat webW 38000 1 (fun _ => true) "g1" cfgW storeW)
    storeW1 cfgW cfgW1 rfl (by decide) (by decide) (by decide) (by decide)).2.2
    "https://a.cl/2"

/-- Witness for C5: with both sample candidates already seen, the second run
collects nothing, sends nothing and leaves the store unchanged. -/
theorem second_run_noop_witness :
    (processSearchHousesByChat webW 38000 1 (fun _ => true) "g1" cfgSeen
      storeSeen).collected = [] ∧
    (processSearchHousesByChat webW 38000 1 (fun _ => true) "g1" cfgSeen
      storeSeen).attempts = [] ∧
    (processSearchHousesByChat webW 38000 1 (fun _ => true) "g1" cfgSeen
      storeSeen).delivered = true ∧
    (processSearchHousesByChat webW 38000 1 (fun _ => true) "g1" cfgSeen
      storeSeen).store = some storeSeen :=
  second_run_noop webW 38000 1 (fun _ => true) "g1" cfgSeen storeSeen
    (processSearchHousesByChat webW 38000 1 (fun _ => true) "g1" cfgSeen storeSeen)
    rfl (by decide) (by decide)

/-- Witness for C7: group `g1` completes and keeps its update, group `g2`
fails at its second batch, the run ends with `g1`'s update only. -/
theorem delivery_failfast_witness :
    mainLoop webW 38000 1 sendOkW ([("g1", cfgW)] ++ ("g2", cfgW2) :: []) storeW
      = (storeW1, false) :=
  (delivery_failfast webW 38000 1 sendOkW [("g1", cfgW)] "g2" cfgW2 [] storeW
    storeW1 (processSearchHousesByChat webW 38000 1 (sendOkW "g2") "g2" cfgW2 storeW1)
    (by decide) rfl (by decide)).1

end HomeScrapper
